import Mathlib

/-!
Verification development for the C Container Collection (ccc) trait layer.

The repository consists of `src/ccc/traits.h`, the generic trait dispatch
layer (every `CCC_*` trait macro forwards its arguments unchanged to the
corresponding `CCC_private_*` backend form, plus an optional namespace block
of short aliases), and `src/utility/defer.h`, a scoped-cleanup construct.
The concrete backend implementations (`private/private_traits.h` and the
container backends) are not part of the sources, so their behaviour is
modelled from the specification where a claim depends on it; the trait
header itself is embedded directly.
-/

namespace CCC

/-! ## Dispatch layer (src/ccc/traits.h)

The trait macros are embedded as Lean functions.  A C container value has a
concrete static type; `_Generic` dispatch in the private layer selects the
backend implementation from that static type alone.  We model the static
type as a `ContainerKind` index and a backend table indexed by it, so that
"resolve at compile time from the concrete type" becomes "apply the table to
the kind"; the trait macros of traits.h are then literal forwarders. -/

/-- Modelled from the spec: the concrete container backends (hash table,
ordered tree, flat array, linked sequence, priority queue) are external
collaborators; only their static kind matters for dispatch. -/
inductive ContainerKind : Type where
  | hashTable
  | orderedTree
  | flatArray
  | linkedSequence
  | priorityQueue
deriving DecidableEq

/-- Modelled from the spec: one monomorphized implementation per operation
that a concrete backend supplies.  `σ` is the backend state, `κ` keys,
`ν` values, `ε` entry results, `ρ` generic results.  The operations listed
are the representatives named by the trait vocabulary claim. -/
structure Backend (σ κ ν ε ρ : Type) : Type where
  swap_entry : σ → κ → ν → ε
  try_insert : σ → κ → ν → ε
  insert_or_assign : σ → κ → ν → ε
  entry : σ → κ → ε
  handle : σ → κ → ε
  push : σ → ν → ρ
  pop : σ → ρ
  begin : σ → ρ
  equal_range : σ → κ → κ → ρ
  copy : σ → σ → Bool → ρ
  clear : σ → ρ
  count : σ → ρ

variable {σ κ ν ε ρ : Type}

/-- Modelled from the spec: `CCC_private_swap_entry` of
`private/private_traits.h` (not under src/) resolves, from the container's
static kind alone, exactly one backend implementation. -/
def CCC_private_swap_entry (impls : ContainerKind → Backend σ κ ν ε ρ)
    (kind : ContainerKind) : σ → κ → ν → ε :=
  (impls kind).swap_entry

/-- Modelled from the spec: private dispatch for `try_insert`. -/
def CCC_private_try_insert (impls : ContainerKind → Backend σ κ ν ε ρ)
    (kind : ContainerKind) : σ → κ → ν → ε :=
  (impls kind).try_insert

/-- Modelled from the spec: private dispatch for `insert_or_assign`. -/
def CCC_private_insert_or_assign (impls : ContainerKind → Backend σ κ ν ε ρ)
    (kind : ContainerKind) : σ → κ → ν → ε :=
  (impls kind).insert_or_assign

/-- Modelled from the spec: private dispatch for `entry`. -/
def CCC_private_entry (impls : ContainerKind → Backend σ κ ν ε ρ)
    (kind : ContainerKind) : σ → κ → ε :=
  (impls kind).entry

/-- Modelled from the spec: private dispatch for `handle`. -/
def CCC_private_handle (impls : ContainerKind → Backend σ κ ν ε ρ)
    (kind : ContainerKind) : σ → κ → ε :=
  (impls kind).handle

/-- Modelled from the spec: private dispatch for `push`. -/
def CCC_private_push (impls : ContainerKind → Backend σ κ ν ε ρ)
    (kind : ContainerKind) : σ → ν → ρ :=
  (impls kind).push

/-- Modelled from the spec: private dispatch for `pop`. -/
def CCC_private_pop (impls : ContainerKind → Backend σ κ ν ε ρ)
    (kind : ContainerKind) : σ → ρ :=
  (impls kind).pop

/-- Modelled from the spec: private dispatch for `begin`. -/
def CCC_private_begin (impls : ContainerKind → Backend σ κ ν ε ρ)
    (kind : ContainerKind) : σ → ρ :=
  (impls kind).begin

/-- Modelled from the spec: private dispatch for `equal_range`. -/
def CCC_private_equal_range (impls : ContainerKind → Backend σ κ ν ε ρ)
    (kind : ContainerKind) : σ → κ → κ → ρ :=
  (impls kind).equal_range

/-- Modelled from the spec: private dispatch for `copy`. -/
def CCC_private_copy (impls : ContainerKind → Backend σ κ ν ε ρ)
    (kind : ContainerKind) : σ → σ → Bool → ρ :=
  (impls kind).copy

/-- Modelled from the spec: private dispatch for `clear`. -/
def CCC_private_clear (impls : ContainerKind → Backend σ κ ν ε ρ)
    (kind : ContainerKind) : σ → ρ :=
  (impls kind).clear

/-- Modelled from the spec: private dispatch for `count`. -/
def CCC_private_count (impls : ContainerKind → Backend σ κ ν ε ρ)
    (kind : ContainerKind) : σ → ρ :=
  (impls kind).count

/-- traits.h lines 51-52: `CCC_swap_entry(container_pointer, swap_arguments...)`
expands to `CCC_private_swap_entry(container_pointer, swap_arguments)`. -/
def CCC_swap_entry (impls : ContainerKind → Backend σ κ ν ε ρ)
    (kind : ContainerKind) : σ → κ → ν → ε :=
  CCC_private_swap_entry impls kind

/-- traits.h lines 87-88: `CCC_try_insert` forwards to `CCC_private_try_insert`. -/
def CCC_try_insert (impls : ContainerKind → Backend σ κ ν ε ρ)
    (kind : ContainerKind) : σ → κ → ν → ε :=
  CCC_private_try_insert impls kind

/-- traits.h lines 105-106: `CCC_insert_or_assign` forwards to
`CCC_private_insert_or_assign`. -/
def CCC_insert_or_assign (impls : ContainerKind → Backend σ κ ν ε ρ)
    (kind : ContainerKind) : σ → κ → ν → ε :=
  CCC_private_insert_or_assign impls kind

/-- traits.h lines 145-146: `CCC_entry` forwards to `CCC_private_entry`. -/
def CCC_entry (impls : ContainerKind → Backend σ κ ν ε ρ)
    (kind : ContainerKind) : σ → κ → ε :=
  CCC_private_entry impls kind

/-- traits.h lines 154-155: `CCC_handle` forwards to `CCC_private_handle`. -/
def CCC_handle (impls : ContainerKind → Backend σ κ ν ε ρ)
    (kind : ContainerKind) : σ → κ → ε :=
  CCC_private_handle impls kind

/-- traits.h lines 311-312: `CCC_push` forwards to `CCC_private_push`. -/
def CCC_push (impls : ContainerKind → Backend σ κ ν ε ρ)
    (kind : ContainerKind) : σ → ν → ρ :=
  CCC_private_push impls kind

/-- traits.h lines 339-340: `CCC_pop` forwards to `CCC_private_pop`. -/
def CCC_pop (impls : ContainerKind → Backend σ κ ν ε ρ)
    (kind : ContainerKind) : σ → ρ :=
  CCC_private_pop impls kind

/-- traits.h line 456: `CCC_begin` forwards to `CCC_private_begin`. -/
def CCC_begin (impls : ContainerKind → Backend σ κ ν ε ρ)
    (kind : ContainerKind) : σ → ρ :=
  CCC_private_begin impls kind

/-- traits.h lines 507-508: `CCC_equal_range` forwards to
`CCC_private_equal_range`. -/
def CCC_equal_range (impls : ContainerKind → Backend σ κ ν ε ρ)
    (kind : ContainerKind) : σ → κ → κ → ρ :=
  CCC_private_equal_range impls kind

/-- traits.h lines 578-581: `CCC_copy` forwards to `CCC_private_copy`. -/
def CCC_copy (impls : ContainerKind → Backend σ κ ν ε ρ)
    (kind : ContainerKind) : σ → σ → Bool → ρ :=
  CCC_private_copy impls kind

/-- traits.h lines 600-601: `CCC_clear` forwards to `CCC_private_clear`. -/
def CCC_clear (impls : ContainerKind → Backend σ κ ν ε ρ)
    (kind : ContainerKind) : σ → ρ :=
  CCC_private_clear impls kind

/-- traits.h line 639: `CCC_count` forwards to `CCC_private_count`. -/
def CCC_count (impls : ContainerKind → Backend σ κ ν ε ρ)
    (kind : ContainerKind) : σ → ρ :=
  CCC_private_count impls kind

end CCC

/-- C1: applying a `CCC_`-prefixed trait macro to a container (of static kind
`kind`) and its operation-specific arguments equals — definitionally, each
conjunct holds by `rfl` — applying the single backend implementation selected
for that kind (the `CCC_private_` form, itself the backend-table entry) to
the same arguments unchanged.  The dispatch is a function of the static kind
only, never of the runtime state, so no runtime tag check or indirection is
introduced. -/
theorem CCC.trait_dispatch_refines_backend {σ κ ν ε ρ : Type}
    (impls : CCC.ContainerKind → CCC.Backend σ κ ν ε ρ)
    (kind : CCC.ContainerKind) (s s2 : σ) (k k2 : κ) (v : ν) (b : Bool) :
    CCC.CCC_swap_entry impls kind s k v = (impls kind).swap_entry s k v ∧
    CCC.CCC_try_insert impls kind s k v = (impls kind).try_insert s k v ∧
    CCC.CCC_insert_or_assign impls kind s k v
      = (impls kind).insert_or_assign s k v ∧
    CCC.CCC_entry impls kind s k = (impls kind).entry s k ∧
    CCC.CCC_handle impls kind s k = (impls kind).handle s k ∧
    CCC.CCC_push impls kind s v = (impls kind).push s v ∧
    CCC.CCC_pop impls kind s = (impls kind).pop s ∧
    CCC.CCC_begin impls kind s = (impls kind).begin s ∧
    CCC.CCC_equal_range impls kind s k k2 = (impls kind).equal_range s k k2 ∧
    CCC.CCC_copy impls kind s s2 b = (impls kind).copy s s2 b ∧
    CCC.CCC_clear impls kind s = (impls kind).clear s ∧
    CCC.CCC_count impls kind s = (impls kind).count s :=
  ⟨rfl, rfl, rfl, rfl, rfl, rfl, rfl, rfl, rfl, rfl, rfl, rfl⟩

/-! ## Namespace alias block (src/ccc/traits.h lines 664-746)

When `TRAITS_USING_NAMESPACE_CCC` is defined, traits.h introduces one short
alias macro per trait: `#define name(arguments...) TARGET(arguments)`.  We
transcribe the macro tables syntactically: the names the header defines with
the `CCC_` prefix, and the alias-to-target pairs of the namespace block. -/

namespace CCC

/-- Names of the trait macros that src/ccc/traits.h itself defines with the
`CCC_` prefix (lines 51-660, in order of definition). -/
def traitMacroNames : List String :=
  ["CCC_swap_entry", "CCC_swap_entry_wrap", "CCC_swap_handle",
   "CCC_swap_handle_wrap", "CCC_try_insert", "CCC_try_insert_wrap",
   "CCC_insert_or_assign", "CCC_insert_or_assign_wrap",
   "CCC_remove_key_value", "CCC_remove_key_value_wrap", "CCC_entry",
   "CCC_handle", "CCC_entry_wrap", "CCC_handle_wrap", "CCC_and_modify",
   "CCC_and_context_modify", "CCC_insert_entry", "CCC_insert_handle",
   "CCC_or_insert", "CCC_remove_entry", "CCC_remove_entry_wrap",
   "CCC_remove_handle", "CCC_remove_handle_wrap", "CCC_unwrap",
   "CCC_occupied", "CCC_insert_error", "CCC_get_key_value", "CCC_contains",
   "CCC_push", "CCC_push_back", "CCC_push_front", "CCC_pop", "CCC_pop_front",
   "CCC_pop_back", "CCC_front", "CCC_back", "CCC_splice", "CCC_splice_range",
   "CCC_update", "CCC_increase", "CCC_decrease", "CCC_erase", "CCC_extract",
   "CCC_extract_range", "CCC_begin", "CCC_reverse_begin", "CCC_next",
   "CCC_reverse_next", "CCC_end", "CCC_reverse_end", "CCC_equal_range",
   "CCC_equal_range_wrap", "CCC_equal_range_reverse",
   "CCC_equal_range_reverse_wrap", "CCC_range_begin", "CCC_range_end",
   "CCC_range_reverse_begin", "CCC_range_reverse_end", "CCC_copy",
   "CCC_reserve", "CCC_clear", "CCC_clear_and_free",
   "CCC_clear_and_free_reserve", "CCC_count", "CCC_capacity", "CCC_is_empty",
   "CCC_validate"]

/-- The short-alias table of the `TRAITS_USING_NAMESPACE_CCC` block
(traits.h lines 667-744, in order): each pair is the alias macro name and
the macro name it expands to. -/
def namespaceAliases : List (String × String) :=
  [("swap_entry", "CCC_swap_entry"),
   ("swap_entry_wrap", "CCC_swap_entry_wrap"),
   ("swap_handle", "CCC_swap_handle"),
   ("swap_handle_wrap", "CCC_swap_handle_wrap"),
   ("try_insert", "CCC_try_insert"),
   ("insert_or_assign", "CCC_insert_or_assign"),
   ("insert_or_assign_wrap", "CCC_insert_or_assign_wrap"),
   ("try_insert_wrap", "CCC_try_insert_wrap"),
   ("remove_key_value", "CCC_remove_key_value"),
   ("remove_key_value_wrap", "CCC_remove_key_value_wrap"),
   ("remove_entry", "CCC_remove_entry"),
   ("remove_entry_wrap", "CCC_remove_entry_wrap"),
   ("remove_handle", "CCC_remove_handle"),
   ("remove_handle_wrap", "CCC_remove_handle_wrap"),
   ("entry", "CCC_entry"),
   ("entry_wrap", "CCC_entry_wrap"),
   ("handle", "CCC_handle"),
   ("handle_wrap", "CCC_handle_wrap"),
   ("or_insert", "CCC_or_insert"),
   ("insert_entry", "CCC_insert_entry"),
   ("insert_handle", "CCC_insert_handle"),
   ("and_modify", "CCC_and_modify"),
   ("and_context_modify", "CCC_and_context_modify"),
   ("occupied", "CCC_occupied"),
   ("insert_error", "CCC_insert_error"),
   ("unwrap", "CCC_unwrap"),
   ("push", "CCC_push"),
   ("push_back", "CCC_push_back"),
   ("push_front", "CCC_push_front"),
   ("pop", "CCC_pop"),
   ("pop_front", "CCC_pop_front"),
   ("pop_back", "CCC_pop_back"),
   ("front", "CCC_front"),
   ("back", "CCC_back"),
   ("update", "CCC_update"),
   ("increase", "CCC_increase"),
   ("decrease", "CCC_decrease"),
   ("erase", "CCC_erase"),
   ("extract", "CCC_extract"),
   ("extract_range", "CCC_extract_range"),
   ("get_key_value", "CCC_get_key_value"),
   ("get_mut", "CCC_get_key_value_mut"),
   ("contains", "CCC_contains"),
   ("begin", "CCC_begin"),
   ("reverse_begin", "CCC_reverse_begin"),
   ("next", "CCC_next"),
   ("reverse_next", "CCC_reverse_next"),
   ("end", "CCC_end"),
   ("reverse_end", "CCC_reverse_end"),
   ("equal_range", "CCC_equal_range"),
   ("equal_range_reverse", "CCC_equal_range_reverse"),
   ("equal_range_wrap", "CCC_equal_range_wrap"),
   ("equal_range_reverse_wrap", "CCC_equal_range_reverse_wrap"),
   ("range_begin", "CCC_range_begin"),
   ("range_end", "CCC_range_end"),
   ("range_reverse_begin", "CCC_range_reverse_begin"),
   ("range_reverse_end", "CCC_range_reverse_end"),
   ("splice", "CCC_splice"),
   ("splice_range", "CCC_splice_range"),
   ("copy", "CCC_copy"),
   ("reserve", "CCC_reserve"),
   ("clear", "CCC_clear"),
   ("clear_and_free", "CCC_clear_and_free"),
   ("clear_and_free_reserve", "CCC_clear_and_free_reserve"),
   ("count", "CCC_count"),
   ("capacity", "CCC_capacity"),
   ("is_empty", "CCC_is_empty"),
   ("validate", "CCC_validate")]

/-- Every alias of the namespace block is a pure pass-through: the expansion
of `alias(arguments)` is the target macro applied to the same argument list
unchanged (traits.h writes every alias as `TARGET(arguments)`). -/
def expandAlias (target : String) (args : String) : String :=
  target ++ "(" ++ args ++ ")"

end CCC

/-- Supporting fact: every alias pair of the namespace block other than
`get_mut` targets exactly the `CCC_`-prefixed form of its own name, and that
target is a macro defined by traits.h itself. -/
theorem CCC.alias_targets_defined_except_get_mut :
    ∀ p ∈ CCC.namespaceAliases,
      p.1 = "get_mut" ∨
        (p.2 = "CCC_" ++ p.1 ∧ p.2 ∈ CCC.traitMacroNames) := by decide

/-! ## Entry result model and a keyed container

The Entry type and the container backends implementing it live outside src/
(`private/private_traits.h` and the backend sources), so they are modelled
from the specification: an Entry is `Occupied(reference)` or
`Vacant(insert-error flag)`; a keyed container is an association list of
key/value pairs without duplicate keys together with a capacity bound, and
an insertion that cannot obtain a slot (allocation/capacity failure) fails
without changing the container. -/

namespace CCC

/-- Modelled from the spec: the tagged Occupied/Vacant result of a keyed
container query.  `Occupied` carries the live reference; `Vacant` carries
the insert-error flag (true when an insertion attempt failed, e.g. an
allocation failure, false for plain absence). -/
inductive Entry (α : Type) : Type where
  | Occupied (ref : α)
  | Vacant (insertError : Bool)
deriving DecidableEq

/-- Modelled from the spec: `occupied` is true exactly on the Occupied tag
(traits.h line 263: true if Occupied, false if Vacant). -/
def occupied {α : Type} : Entry α → Bool
  | .Occupied _ => true
  | .Vacant _ => false

/-- Modelled from the spec: `unwrap` returns a valid reference if Occupied
or NULL if Vacant (traits.h line 256); NULL is `none`. -/
def unwrap {α : Type} : Entry α → Option α
  | .Occupied r => some r
  | .Vacant _ => none

/-- Modelled from the spec: `insert_error` reports whether the last insert
failed (traits.h line 270); the flag lives only on the Vacant tag. -/
def insert_error {α : Type} : Entry α → Bool
  | .Occupied _ => false
  | .Vacant e => e

/-- Modelled from the spec: a keyed container backend as an association
list of key/value pairs (no duplicate keys among the entries in use) with a
capacity bound on the backing storage; an insertion needing a new slot
succeeds exactly when the count is below the capacity. -/
structure KeyedContainer : Type where
  entries : List (Nat × Nat)
  capacity : Nat
deriving DecidableEq

/-- Association-list lookup of the value stored at a key. -/
def alookup (k : Nat) : List (Nat × Nat) → Option Nat
  | [] => none
  | p :: ps => if p.1 = k then some p.2 else alookup k ps

/-- Association-list in-place assignment of a new value at a key. -/
def assign (k v : Nat) : List (Nat × Nat) → List (Nat × Nat)
  | [] => []
  | p :: ps => if p.1 = k then (k, v) :: ps else p :: assign k v ps

/-- Modelled from the spec: the container-level query producing an Entry —
Occupied with the live value when the key is present, Vacant (no insert
error) when absent. -/
def query (c : KeyedContainer) (k : Nat) : Entry Nat :=
  match alookup k c.entries with
  | some v => .Occupied v
  | none => .Vacant false

/-- Modelled from the spec: `swap` — on Occupied replace the stored value
and return the prior value, staying Occupied; on Vacant attempt insertion,
success giving Occupied(new) and allocation failure giving Vacant with the
insert-error flag set and the container untouched. -/
def swap_entry (c : KeyedContainer) (k v : Nat) : Entry Nat × KeyedContainer :=
  match alookup k c.entries with
  | some old => (.Occupied old, { c with entries := assign k v c.entries })
  | none =>
    if c.entries.length < c.capacity then
      (.Occupied v, { c with entries := c.entries ++ [(k, v)] })
    else
      (.Vacant true, c)

/-- Modelled from the spec: `try_insert` — a no-op returning the existing
value if Occupied; on Vacant it behaves as the Vacant branch of `swap`. -/
def try_insert (c : KeyedContainer) (k v : Nat) : Entry Nat × KeyedContainer :=
  match alookup k c.entries with
  | some old => (.Occupied old, c)
  | none =>
    if c.entries.length < c.capacity then
      (.Occupied v, { c with entries := c.entries ++ [(k, v)] })
    else
      (.Vacant true, c)

/-- Modelled from the spec: `insert_or_assign` — always ends Occupied with
the supplied value unless the underlying insertion allocation fails, in
which case the result is Vacant with insert-error and the container is
untouched. -/
def insert_or_assign (c : KeyedContainer) (k v : Nat) :
    Entry Nat × KeyedContainer :=
  match alookup k c.entries with
  | some _ => (.Occupied v, { c with entries := assign k v c.entries })
  | none =>
    if c.entries.length < c.capacity then
      (.Occupied v, { c with entries := c.entries ++ [(k, v)] })
    else
      (.Vacant true, c)

/-- Repeated `try_insert` calls at one key with a list of supplied values,
keeping the final container. -/
def try_insert_iter (c : KeyedContainer) (k : Nat) : List Nat → KeyedContainer
  | [] => c
  | v :: vs => try_insert_iter (try_insert c k v).2 k vs

end CCC

/-- C2: for every Entry exactly one of the tags Occupied and Vacant holds;
`occupied` is true exactly on the Occupied tag; `unwrap` yields a valid
(non-NULL) reference exactly on Occupied and NULL on Vacant regardless of
the insert-error flag; and `insert_error` is false on every Occupied entry,
so it can be true only on Vacant. -/
theorem CCC.entry_tag_invariants {α : Type} (e : CCC.Entry α) (r : α)
    (flag : Bool) :
    ((∃ x, e = CCC.Entry.Occupied x) ↔ ¬ ∃ f, e = CCC.Entry.Vacant f) ∧
    (CCC.occupied e = true ↔ ∃ x, e = CCC.Entry.Occupied x) ∧
    ((CCC.unwrap e).isSome = CCC.occupied e) ∧
    CCC.unwrap (CCC.Entry.Occupied r) = some r ∧
    CCC.unwrap (CCC.Entry.Vacant flag : CCC.Entry α) = none ∧
    CCC.insert_error (CCC.Entry.Occupied r) = false ∧
    CCC.insert_error (CCC.Entry.Vacant flag : CCC.Entry α) = flag := by
  refine ⟨?_, ?_, ?_, rfl, rfl, rfl, rfl⟩
  · cases e with
    | Occupied x => simp [CCC.Entry.Occupied.injEq]
    | Vacant f => simp
  · cases e with
    | Occupied x => simp [CCC.occupied]
    | Vacant f => simp [CCC.occupied]
  · cases e <;> rfl

namespace CCC

/-- Modelled from the spec: result codes of memory-management and state
operations — success, a capacity/allocation error, or an argument error for
an invalid required pointer. -/
inductive CResult : Type where
  | ok
  | capacity_error
  | argument_error
deriving DecidableEq

/-- Modelled from the spec: `reserve(n)` pre-grows the container so that `n`
further insertions need no reallocation; when the present capacity does not
suffice and the allocator cannot obtain memory (`allocOk = false`), it
reports a capacity error and leaves the container in its prior state. -/
def reserve (c : KeyedContainer) (n : Nat) (allocOk : Bool) :
    CResult × KeyedContainer :=
  if c.entries.length + n ≤ c.capacity then (.ok, c)
  else if allocOk then (.ok, { c with capacity := c.entries.length + n })
  else (.capacity_error, c)

/-- Modelled from the spec: `copy(dst, src, allocator)` deep-duplicates the
logical contents of `src` into `dst`, reallocating `dst` when needed; when
`dst` is too small and no memory can be obtained (`allocOk = false`), it
reports a capacity error and leaves `dst` in its prior state. -/
def copy (dst src : KeyedContainer) (allocOk : Bool) :
    CResult × KeyedContainer :=
  if src.entries.length ≤ dst.capacity then
    (.ok, { dst with entries := src.entries })
  else if allocOk then
    (.ok, { entries := src.entries, capacity := src.entries.length })
  else
    (.capacity_error, dst)

/-- Assigning at a present key stores the new value at that key. -/
theorem alookup_assign (k v : Nat) (l : List (Nat × Nat)) (old : Nat)
    (h : alookup k l = some old) : alookup k (assign k v l) = some v := by
  induction l with
  | nil => simp [alookup] at h
  | cons p ps ih =>
    by_cases hp : p.1 = k
    · simp [assign, alookup, hp]
    · simp [alookup, hp] at h
      simp [assign, alookup, hp, ih h]

/-- Appending a fresh binding at an absent key makes lookup find it. -/
theorem alookup_append (k v : Nat) (l : List (Nat × Nat))
    (h : alookup k l = none) : alookup k (l ++ [(k, v)]) = some v := by
  induction l with
  | nil => simp [alookup]
  | cons p ps ih =>
    by_cases hp : p.1 = k
    · simp [alookup, hp] at h
    · simp [alookup, hp] at h
      simp [alookup, hp, ih h]

/-- `try_insert` at a key whose entry is Occupied never changes the
container, however many times it is repeated and whatever values are
supplied. -/
theorem try_insert_iter_occupied (c : KeyedContainer) (k : Nat)
    (vs : List Nat) (old : Nat) (h : alookup k c.entries = some old) :
    try_insert_iter c k vs = c := by
  induction vs with
  | nil => rfl
  | cons v vs ih =>
    have hstep : try_insert c k v = (.Occupied old, c) := by
      simp [try_insert, h]
    simp [try_insert_iter, hstep, ih]

end CCC

/-- C3: `swap` on an entry for key `k` — when the entry is Occupied holding
`old`, the call returns `old` and afterwards the entry for `k` is Occupied
with the new value; when the entry is Vacant, an insertion is attempted:
on success the entry becomes Occupied with the new value, and on allocation
failure the container is unchanged and the result is Vacant with the
insert-error flag set. -/
theorem CCC.swap_entry_spec (c : CCC.KeyedContainer) (k v : Nat) :
    match CCC.alookup k c.entries with
    | some old =>
        (CCC.swap_entry c k v).1 = CCC.Entry.Occupied old ∧
        CCC.query (CCC.swap_entry c k v).2 k = CCC.Entry.Occupied v
    | none =>
        if c.entries.length < c.capacity then
          (CCC.swap_entry c k v).1 = CCC.Entry.Occupied v ∧
          CCC.query (CCC.swap_entry c k v).2 k = CCC.Entry.Occupied v
        else
          CCC.swap_entry c k v = (CCC.Entry.Vacant true, c) := by
  cases h : CCC.alookup k c.entries with
  | some old =>
    refine ⟨by simp [CCC.swap_entry, h], ?_⟩
    simp [CCC.swap_entry, h, CCC.query, CCC.alookup_assign k v c.entries old h]
  | none =>
    by_cases hcap : c.entries.length < c.capacity
    · simp only [hcap, if_true]
      refine ⟨by simp [CCC.swap_entry, h, hcap], ?_⟩
      simp [CCC.swap_entry, h, hcap, CCC.query,
        CCC.alookup_append k v c.entries h]
    · simp only [hcap, if_false]
      simp [CCC.swap_entry, h, hcap]

/-- C4: `try_insert` is idempotent on an Occupied entry — a single call
returns the existing value and leaves the container untouched, and any
number of repeated calls with any supplied values leaves the stored value
(indeed the whole container) unchanged; on a Vacant entry `try_insert` is
exactly `swap`'s Vacant branch (the two operations agree as functions
there). -/
theorem CCC.try_insert_spec (c : CCC.KeyedContainer) (k v : Nat)
    (vs : List Nat) :
    match CCC.alookup k c.entries with
    | some old =>
        CCC.try_insert c k v = (CCC.Entry.Occupied old, c) ∧
        CCC.try_insert_iter c k (v :: vs) = c ∧
        CCC.query (CCC.try_insert_iter c k (v :: vs)) k
          = CCC.Entry.Occupied old
    | none => CCC.try_insert c k v = CCC.swap_entry c k v := by
  cases h : CCC.alookup k c.entries with
  | some old =>
    have hiter : CCC.try_insert_iter c k (v :: vs) = c :=
      CCC.try_insert_iter_occupied c k (v :: vs) old h
    exact ⟨by simp [CCC.try_insert, h], hiter,
      by simp [hiter, CCC.query, h]⟩
  | none => simp [CCC.try_insert, CCC.swap_entry, h]

/-- C6: when an insertion (`swap`, `try_insert`, `insert_or_assign`), a
reservation, or a duplication cannot obtain the memory it needs, the failure
is reported through the insert-error flag or an explicit capacity-error
result while the container is left exactly in its prior state; every such
operation returns normally, so no allocation failure is fatal. -/
theorem CCC.allocation_failure_frame (c dst src : CCC.KeyedContainer)
    (k v n : Nat)
    (hmiss : CCC.alookup k c.entries = none)
    (hfull : c.capacity ≤ c.entries.length)
    (hres : c.capacity < c.entries.length + n)
    (hcopy : dst.capacity < src.entries.length) :
    CCC.swap_entry c k v = (CCC.Entry.Vacant true, c) ∧
    CCC.insert_error (CCC.swap_entry c k v).1 = true ∧
    CCC.try_insert c k v = (CCC.Entry.Vacant true, c) ∧
    CCC.insert_or_assign c k v = (CCC.Entry.Vacant true, c) ∧
    CCC.reserve c n false = (CCC.CResult.capacity_error, c) ∧
    CCC.copy dst src false = (CCC.CResult.capacity_error, dst) := by
  have hnot : ¬ c.entries.length < c.capacity := Nat.not_lt.mpr hfull
  refine ⟨?_, ?_, ?_, ?_, ?_, ?_⟩
  · simp [CCC.swap_entry, hmiss, hnot]
  · simp [CCC.swap_entry, hmiss, hnot, CCC.insert_error]
  · simp [CCC.try_insert, hmiss, hnot]
  · simp [CCC.insert_or_assign, hmiss, hnot]
  · simp [CCC.reserve, Nat.not_le.mpr hres]
  · simp [CCC.copy, Nat.not_le.mpr hcopy]

/-- Witness for C6 at a concrete full container: one resident pair, capacity
one, a fresh key, a reservation of one more slot, and a destination too
small for the source. -/
theorem CCC.allocation_failure_frame_witness :
    CCC.alookup 2 (CCC.KeyedContainer.mk [(1, 10)] 1).entries = none ∧
    (CCC.KeyedContainer.mk [(1, 10)] 1).capacity
      ≤ (CCC.KeyedContainer.mk [(1, 10)] 1).entries.length ∧
    (CCC.KeyedContainer.mk [(1, 10)] 1).capacity
      < (CCC.KeyedContainer.mk [(1, 10)] 1).entries.length + 1 ∧
    (CCC.KeyedContainer.mk [] 0).capacity
      < (CCC.KeyedContainer.mk [(3, 4)] 1).entries.length ∧
    (CCC.swap_entry (CCC.KeyedContainer.mk [(1, 10)] 1) 2 5
      = (CCC.Entry.Vacant true, CCC.KeyedContainer.mk [(1, 10)] 1) ∧
     CCC.insert_error
        (CCC.swap_entry (CCC.KeyedContainer.mk [(1, 10)] 1) 2 5).1 = true ∧
     CCC.try_insert (CCC.KeyedContainer.mk [(1, 10)] 1) 2 5
      = (CCC.Entry.Vacant true, CCC.KeyedContainer.mk [(1, 10)] 1) ∧
     CCC.insert_or_assign (CCC.KeyedContainer.mk [(1, 10)] 1) 2 5
      = (CCC.Entry.Vacant true, CCC.KeyedContainer.mk [(1, 10)] 1) ∧
     CCC.reserve (CCC.KeyedContainer.mk [(1, 10)] 1) 1 false
      = (CCC.CResult.capacity_error, CCC.KeyedContainer.mk [(1, 10)] 1) ∧
     CCC.copy (CCC.KeyedContainer.mk [] 0) (CCC.KeyedContainer.mk [(3, 4)] 1)
        false
      = (CCC.CResult.capacity_error, CCC.KeyedContainer.mk [] 0)) :=
  ⟨by decide, by decide, by decide, by decide,
   CCC.allocation_failure_frame (CCC.KeyedContainer.mk [(1, 10)] 1)
     (CCC.KeyedContainer.mk [] 0) (CCC.KeyedContainer.mk [(3, 4)] 1) 2 5 1
     (by decide) (by decide) (by decide) (by decide)⟩

namespace CCC

/-- Modelled from the spec: running the destructor callback over the
resident elements one at a time, in residence order; the returned list is
the invocation log (one entry per element the destructor was applied to). -/
def runDestructor {δ : Type} (d : Nat → δ) : List (Nat × Nat) → List δ
  | [] => []
  | p :: ps => d p.2 :: runDestructor d ps

/-- Modelled from the spec: `clear` runs the destructor on every resident
element and resets the count to zero, keeping the backing buffer and its
capacity. -/
def clear {δ : Type} (c : KeyedContainer) (d : Nat → δ) :
    List δ × KeyedContainer :=
  (runDestructor d c.entries, { entries := [], capacity := c.capacity })

/-- Modelled from the spec: `clear_and_free` performs the same per-element
destruction and count reset and additionally releases the backing buffer
through the container's own allocator, leaving no capacity. -/
def clear_and_free {δ : Type} (c : KeyedContainer) (d : Nat → δ) :
    List δ × KeyedContainer :=
  (runDestructor d c.entries, { entries := [], capacity := 0 })

/-- The destructor run visits exactly the resident values, in order. -/
theorem runDestructor_eq_map {δ : Type} (d : Nat → δ) :
    ∀ l : List (Nat × Nat), runDestructor d l = l.map (fun p => d p.2) := by
  intro l
  induction l with
  | nil => rfl
  | cons p ps ih => simp [runDestructor, ih]

end CCC

/-- C7: `clear` invokes the destructor exactly once per resident element
(the invocation log is precisely the list of resident values, so it has one
entry per element), sets the element count to zero, and leaves the backing
capacity unchanged; `clear_and_free` performs the same destruction and
count reset and additionally releases the backing buffer (capacity zero). -/
theorem CCC.clear_spec {δ : Type} (c : CCC.KeyedContainer) (d : Nat → δ) :
    (CCC.clear c d).1 = c.entries.map (fun p => d p.2) ∧
    (CCC.clear c d).1.length = c.entries.length ∧
    (CCC.clear c d).2.entries.length = 0 ∧
    (CCC.clear c d).2.capacity = c.capacity ∧
    (CCC.clear_and_free c d).1 = c.entries.map (fun p => d p.2) ∧
    (CCC.clear_and_free c d).2.entries.length = 0 ∧
    (CCC.clear_and_free c d).2.capacity = 0 := by
  refine ⟨CCC.runDestructor_eq_map d c.entries, ?_, rfl, rfl,
    CCC.runDestructor_eq_map d c.entries, rfl, rfl⟩
  simp [CCC.clear, CCC.runDestructor_eq_map d c.entries]

namespace CCC

/-- Modelled from the spec: result of a count-like state query — the value,
or a distinct argument-error code when a required pointer is invalid. -/
inductive CountResult : Type where
  | ok (n : Nat)
  | argument_error
deriving DecidableEq

/-- Modelled from the spec: `count` returns the number of stored elements,
or the argument error if the container pointer is NULL (traits.h line 636);
a NULL pointer is `none`. -/
def ccc_count : Option KeyedContainer → CountResult
  | none => .argument_error
  | some c => .ok c.entries.length

/-- Modelled from the spec: `capacity` returns the capacity, or the argument
error if the container pointer is NULL (traits.h line 643). -/
def ccc_capacity : Option KeyedContainer → CountResult
  | none => .argument_error
  | some c => .ok c.capacity

/-- Modelled from the spec: `is_empty` returns true if the container is
empty or the pointer is NULL, false if not (traits.h line 650). -/
def ccc_is_empty : Option KeyedContainer → Bool
  | none => true
  | some c => c.entries.length == 0

end CCC

/-- C8 counterexample: on a NULL container pointer `is_empty` returns true,
exactly the result it returns on a valid empty container, so the two are
not distinguishable through the operation's result. -/
theorem CCC.is_empty_null_conflated :
    CCC.ccc_is_empty none
      = CCC.ccc_is_empty (some (CCC.KeyedContainer.mk [] 4)) ∧
    CCC.ccc_is_empty none = true := by
  exact ⟨rfl, rfl⟩

/-- C8 amended: `count` and `capacity` report a NULL container pointer
through their ordinary result channel as the distinct argument-error code,
which is never equal to a valid answer; `is_empty`, however, returns true on
a NULL pointer — the same value it returns on a valid empty container — so
only the counted queries distinguish the invalid argument. -/
theorem CCC.state_query_null_spec (c : CCC.KeyedContainer) (n : Nat) :
    CCC.ccc_count none = CCC.CountResult.argument_error ∧
    CCC.ccc_capacity none = CCC.CountResult.argument_error ∧
    CCC.ccc_count (some c) = CCC.CountResult.ok c.entries.length ∧
    CCC.ccc_capacity (some c) = CCC.CountResult.ok c.capacity ∧
    CCC.CountResult.argument_error ≠ CCC.CountResult.ok n ∧
    CCC.ccc_is_empty none = true ∧
    CCC.ccc_is_empty (some c) = (c.entries.length == 0) := by
  refine ⟨rfl, rfl, rfl, rfl, ?_, rfl, rfl⟩
  intro h
  exact CCC.CountResult.noConfusion h

namespace CCC

/-! ## Ordered ranges

The ordered containers implementing `equal_range` live outside src/, so the
bounded query is modelled from the specification over the container's key
sequence in ascending order (a sorted list).  A range value is embedded as
the list of keys between its begin and end cursors; the empty list is the
begin-equals-end range, and no query ever yields a NULL range. -/

/-- Modelled from the spec: `equal_range(lo, hi)` yields the sub-range of
elements with key in the closed interval [lo, hi], collected in ascending
traversal order. -/
def equal_range (l : List Nat) (lo hi : Nat) : List Nat :=
  l.filter (fun k => decide (lo ≤ k) && decide (k ≤ hi))

/-- Modelled from the spec: `equal_range_reverse` traverses the container
backward and yields the elements with key in [lo, hi] in that reverse
traversal order. -/
def equal_range_reverse (l : List Nat) (lo hi : Nat) : List Nat :=
  l.reverse.filter (fun k => decide (lo ≤ k) && decide (k ≤ hi))

/-- On a sorted key sequence whose keys are all at least `lo`, the interval
filter is an initial segment: it keeps exactly the leading keys that are at
most `hi`. -/
theorem filter_interval_takeWhile (lo hi : Nat) (l : List Nat)
    (hs : List.Sorted (· ≤ ·) l) (hlo : ∀ k ∈ l, lo ≤ k) :
    l.filter (fun k => decide (lo ≤ k) && decide (k ≤ hi))
      = l.takeWhile (fun k => decide (k ≤ hi)) := by
  induction l with
  | nil => rfl
  | cons a t ih =>
    have ha : lo ≤ a := hlo a (List.mem_cons_self a t)
    have hs2 := List.sorted_cons.mp hs
    by_cases hhi : a ≤ hi
    · simp [List.filter_cons, List.takeWhile_cons, ha, hhi,
        ih hs2.2 (fun k hk => hlo k (List.mem_cons_of_mem a hk))]
    · have hfil : t.filter (fun k => decide (lo ≤ k) && decide (k ≤ hi))
          = [] := by
        apply List.filter_eq_nil_iff.mpr
        intro b hb
        have hab : a ≤ b := hs2.1 b hb
        simp only [Bool.and_eq_true, decide_eq_true_eq, not_and]
        intro _
        omega
      simp [List.filter_cons, List.takeWhile_cons, ha, hhi, hfil]

/-- On a sorted key sequence the interval filter selects a contiguous run:
the selected keys form an infix of the traversal. -/
theorem filter_interval_isInfix (lo hi : Nat) (l : List Nat)
    (hs : List.Sorted (· ≤ ·) l) :
    List.IsInfix (l.filter (fun k => decide (lo ≤ k) && decide (k ≤ hi)))
      l := by
  induction l with
  | nil => simp
  | cons a t ih =>
    have hs2 := List.sorted_cons.mp hs
    by_cases hp : lo ≤ a ∧ a ≤ hi
    · have hta : t.filter (fun k => decide (lo ≤ k) && decide (k ≤ hi))
          = t.takeWhile (fun k => decide (k ≤ hi)) :=
        filter_interval_takeWhile lo hi t hs2.2
          (fun k hk => le_trans hp.1 (hs2.1 k hk))
      have heq : (a :: t).filter (fun k => decide (lo ≤ k) && decide (k ≤ hi))
          = (a :: t).takeWhile (fun k => decide (k ≤ hi)) := by
        simp [List.filter_cons, List.takeWhile_cons, hp.1, hp.2, hta]
      rw [heq]
      exact (List.takeWhile_prefix _).isInfix
    · have heq : (a :: t).filter (fun k => decide (lo ≤ k) && decide (k ≤ hi))
          = t.filter (fun k => decide (lo ≤ k) && decide (k ≤ hi)) := by
        rcases Nat.lt_or_ge a lo with hcase | hcase
        · simp [List.filter_cons, Nat.not_le.mpr hcase]
        · have hnot : ¬ a ≤ hi := fun hle => hp ⟨hcase, hle⟩
          simp [List.filter_cons, hnot]
      rw [heq]
      exact List.infix_cons (ih hs2.2)

end CCC

/-- C5: over an ordered container (sorted key sequence) and bounds
`lo ≤ hi`, `equal_range(lo, hi)` yields exactly the elements with key in
the closed interval [lo, hi] — no others — as a contiguous (infix),
ascending sub-sequence of the container order; when no key lies in the
interval the result is the empty range (begin equals end, never a NULL
result, the model's range being a list); and `equal_range_reverse` over the
same bounds yields the identical element set traversed backward. -/
theorem CCC.equal_range_spec (l : List Nat) (lo hi : Nat)
    (hs : List.Sorted (· ≤ ·) l) (hbounds : lo ≤ hi) :
    (∀ k, k ∈ CCC.equal_range l lo hi ↔ k ∈ l ∧ lo ≤ k ∧ k ≤ hi) ∧
    List.Sorted (· ≤ ·) (CCC.equal_range l lo hi) ∧
    List.IsInfix (CCC.equal_range l lo hi) l ∧
    (CCC.equal_range l lo hi = [] ↔ ∀ k ∈ l, ¬(lo ≤ k ∧ k ≤ hi)) ∧
    CCC.equal_range_reverse l lo hi = (CCC.equal_range l lo hi).reverse := by
  refine ⟨?_, ?_, ?_, ?_, ?_⟩
  · intro k
    simp [CCC.equal_range, List.mem_filter, and_assoc]
  · exact List.Pairwise.sublist (List.filter_sublist l) hs
  · exact CCC.filter_interval_isInfix lo hi l hs
  · simp [CCC.equal_range, List.filter_eq_nil_iff]
  · simp [CCC.equal_range, CCC.equal_range_reverse, List.filter_reverse]

/-- Witness for C5 on the specification's own vector: sorted keys
1, 3, 5, 6, 9 with bounds 3 and 7 give exactly 3, 5, 6 ascending, the
reverse query gives 6, 5, 3, and bounds 10 and 20 give the empty range. -/
theorem CCC.equal_range_spec_witness :
    List.Sorted (· ≤ ·) [1, 3, 5, 6, 9] ∧ (3 : Nat) ≤ 7 ∧
    CCC.equal_range [1, 3, 5, 6, 9] 3 7 = [3, 5, 6] ∧
    CCC.equal_range_reverse [1, 3, 5, 6, 9] 3 7 = [6, 5, 3] ∧
    CCC.equal_range [1, 3, 5, 6, 9] 10 20 = [] ∧
    ((∀ k, k ∈ CCC.equal_range [1, 3, 5, 6, 9] 3 7
        ↔ k ∈ [1, 3, 5, 6, 9] ∧ 3 ≤ k ∧ k ≤ 7) ∧
     List.Sorted (· ≤ ·) (CCC.equal_range [1, 3, 5, 6, 9] 3 7) ∧
     List.IsInfix (CCC.equal_range [1, 3, 5, 6, 9] 3 7) [1, 3, 5, 6, 9] ∧
     (CCC.equal_range [1, 3, 5, 6, 9] 3 7 = []
        ↔ ∀ k ∈ [1, 3, 5, 6, 9], ¬(3 ≤ k ∧ k ≤ 7)) ∧
     CCC.equal_range_reverse [1, 3, 5, 6, 9] 3 7
        = (CCC.equal_range [1, 3, 5, 6, 9] 3 7).reverse) :=
  ⟨by decide, by decide, by decide, by decide, by decide,
   CCC.equal_range_spec [1, 3, 5, 6, 9] 3 7 (by decide) (by decide)⟩

namespace DeferScope

/-! ## Scoped cleanup (src/utility/defer.h)

The `defer` macro attaches a cleanup statement to the enclosing scope via
the compiler's scoped-cleanup attribute; the attribute's runtime semantics
is supplied by the compiler, not by the sources, so scope execution is
modelled from the specification: the cleanup runs exactly once on every
exit path of the scope — normal completion or early return — and multiple
cleanups in one scope run in reverse order of acquisition. -/

/-- Modelled from the spec: the body of one scope as a statement list — an
observable action, a `defer` registering a cleanup, or an early return. -/
inductive Stmt : Type where
  | act (a : Nat)
  | defer (cleanup : Nat)
  | ret
deriving DecidableEq

/-- Whether a statement exits the scope early. -/
def isRet : Stmt → Bool
  | .ret => true
  | _ => false

/-- Modelled from the spec: run a scope body with the stack of cleanups
registered so far (most recent first).  Actions append to the trace; a
`defer` pushes its cleanup; scope exit — the end of the body or an early
return — flushes the registered cleanups, most recently acquired first.
The returned list is the full observable trace. -/
def execScope : List Stmt → List Nat → List Nat
  | [], pending => pending
  | .act a :: rest, pending => a :: execScope rest pending
  | .defer c :: rest, pending => execScope rest (c :: pending)
  | .ret :: _, pending => pending

/-- The statements a scope actually executes: everything before the first
early return. -/
def reachable (p : List Stmt) : List Stmt :=
  p.takeWhile (fun s => !isRet s)

/-- The cleanups a run of the scope acquires, in acquisition order. -/
def registrations (p : List Stmt) : List Nat :=
  (reachable p).filterMap fun s =>
    match s with
    | .defer c => some c
    | _ => none

/-- The observable actions a run of the scope performs, in order. -/
def actionTrace (p : List Stmt) : List Nat :=
  (reachable p).filterMap fun s =>
    match s with
    | .act a => some a
    | _ => none

/-- Executing a scope produces its actions followed, at exit, by its
acquired cleanups in reverse acquisition order, in front of any cleanups of
enclosing scopes. -/
theorem execScope_characterization (p : List Stmt) :
    ∀ pending : List Nat,
      execScope p pending
        = actionTrace p ++ (registrations p).reverse ++ pending := by
  induction p with
  | nil => intro pending; rfl
  | cons s rest ih =>
    intro pending
    cases s with
    | act a =>
      simp [execScope, actionTrace, registrations, reachable,
        List.takeWhile_cons, isRet, List.filterMap_cons, ih pending]
    | defer c =>
      have hstep := ih (c :: pending)
      simp [execScope, actionTrace, registrations, reachable,
        List.takeWhile_cons, isRet, List.filterMap_cons, hstep]
    | ret =>
      simp [execScope, actionTrace, registrations, reachable,
        List.takeWhile_cons, isRet]

/-- Statements after an early return never influence the trace: the exit
path through `ret` flushes exactly the cleanups acquired before it. -/
theorem execScope_post_irrelevant (post post2 : List Stmt) :
    ∀ (pre : List Stmt) (pending : List Nat),
      execScope (pre ++ Stmt.ret :: post) pending
        = execScope (pre ++ Stmt.ret :: post2) pending := by
  intro pre
  induction pre with
  | nil => intro pending; rfl
  | cons s rest ih =>
    intro pending
    cases s with
    | act a => simp [execScope, ih]
    | defer c => simp [execScope, ih]
    | ret => rfl

end DeferScope

/-- C9: a scope's trace is its actions followed by every acquired cleanup
run exactly once (the trace counts each cleanup value once per acquisition)
in reverse order of acquisition; and the same guarantee holds on an
early-return exit path — statements after the return, including further
defers, have no effect on what runs. -/
theorem DeferScope.defer_scope_spec (p : List DeferScope.Stmt) (c : Nat)
    (pre post post2 : List DeferScope.Stmt) :
    DeferScope.execScope p []
      = DeferScope.actionTrace p ++ (DeferScope.registrations p).reverse ∧
    (DeferScope.execScope p []).count c
      = (DeferScope.actionTrace p).count c
        + (DeferScope.registrations p).count c ∧
    DeferScope.execScope (pre ++ DeferScope.Stmt.ret :: post) []
      = DeferScope.execScope (pre ++ DeferScope.Stmt.ret :: post2) [] := by
  refine ⟨?_, ?_, DeferScope.execScope_post_irrelevant post post2 pre []⟩
  · simpa using DeferScope.execScope_characterization p []
  · have h := DeferScope.execScope_characterization p []
    simp [h, List.count_append, List.count_reverse]

/-- C10 evaluation at the failing alias: the namespace block defines
`get_mut(arguments...)` as `CCC_get_key_value_mut(arguments)`, but
`CCC_get_key_value_mut` is not among the trait macros traits.h defines
(only `CCC_get_key_value` is), so this one short alias expands to a name
the header itself never defines, while its expansion still passes the
argument list through unchanged. -/
theorem CCC.alias_get_mut_target_undefined :
    (("get_mut", "CCC_get_key_value_mut")) ∈ CCC.namespaceAliases ∧
    ("CCC_get_key_value_mut") ∉ CCC.traitMacroNames ∧
    ("CCC_get_key_value") ∈ CCC.traitMacroNames ∧
    (∀ args, CCC.expandAlias ("CCC_get_key_value_mut") args
      = ("CCC_get_key_value_mut" ++ "(") ++ args ++ ")") := by
  refine ⟨by decide, by decide, by decide, fun args => ?_⟩
  simp [CCC.expandAlias, String.append_assoc]
